import Mathlib

/-!
Verification development for the AI stock-signal dashboard.

The TypeScript sources are embedded shallowly:
* numbers are modelled as rationals (`ℚ`), with `round2` standing for
  `parseFloat(x.toFixed(2))`;
* the indicator functions `calculateEMA`, `calculateMACD`, `calculateRSI`
  from `services/geminiService.ts` (and the duplicate `calculateEMA` from
  `components/SparklineChart.tsx`) become pure Lean functions;
* the per-symbol refresh machinery of the main app component becomes an
  explicit step relation on an application state;
* the rate limiter behind `scheduleApiCall` (whose implementation file is
  not part of the sources) is modelled from the specification.
-/

set_option maxHeartbeats 1000000

/-- JS `parseFloat(x.toFixed(2))`: rounding to two decimal places. -/
def round2 (x : ℚ) : ℚ := (round (x * 100) : ℤ) / 100

/-- `SignalType` from `types.ts`: `"BUY" | "SELL" | "HOLD"`. -/
inductive SignalType
  | BUY
  | SELL
  | HOLD
deriving DecidableEq

/-- One news item `{title, uri}` of a signal. -/
structure NewsItem where
  title : String
  uri : String
deriving DecidableEq

/-- `Signal` from `types.ts`: `{type, reason, news}`. -/
structure Signal where
  type : SignalType
  reason : String
  news : List NewsItem
deriving DecidableEq

/-- `Candle` from `types.ts`: `{time, close, volume}` (close as a rational). -/
structure Candle where
  time : Int
  close : ℚ
  volume : Int
deriving DecidableEq

/-- `ConnectionStatus` from `types.ts`. -/
inductive ConnectionStatus
  | OFFLINE
  | ONLINE
  | REFRESHING
deriving DecidableEq

namespace GeminiService

/-- The tail loop of `calculateEMA` (`services/geminiService.ts`, lines 33-37):
each new value is `price * k + previous * (1 - k)`, pushed left to right. -/
def emaTail (k : ℚ) : List ℚ → ℚ → List ℚ
  | [], _ => []
  | p :: rest, prev =>
    let e := p * k + prev * (1 - k)
    e :: emaTail k rest e

/-- `calculateEMA` from `services/geminiService.ts` (lines 21-39): empty result
when the series is shorter than the period, otherwise the SMA of the first
`period` samples followed by the smoothed values with `k = 2/(period+1)`. -/
def calculateEMA (prices : List ℚ) (period : ℕ) : List ℚ :=
  if prices.length < period then []
  else
    let k : ℚ := 2 / ((period : ℚ) + 1)
    let seed : ℚ := (prices.take period).sum / (period : ℚ)
    seed :: emaTail k (prices.drop period) seed

/-- `MACDResult` from `services/geminiService.ts` (lines 41-45). -/
structure MACDResult where
  macdLine : ℚ
  signalLine : ℚ
  histogram : ℚ
deriving DecidableEq

/-- The MACD line of `calculateMACD` (`services/geminiService.ts`, line 62):
the fast EMA with its first `slow - fast` entries dropped, minus the slow EMA
pointwise. -/
def macdLine (prices : List ℚ) (fastPeriod slowPeriod : ℕ) : List ℚ :=
  List.zipWith (fun a b => a - b)
    ((calculateEMA prices fastPeriod).drop (slowPeriod - fastPeriod))
    (calculateEMA prices slowPeriod)

/-- `calculateMACD` from `services/geminiService.ts` (lines 52-82): absent
when the series is shorter than `slow + signal` or the MACD line is shorter
than `signal` or a last element is missing; otherwise the latest MACD line,
signal line and their difference, each rounded to two decimals. -/
def calculateMACD (candles : List Candle)
    (fastPeriod slowPeriod signalPeriod : ℕ) : Option MACDResult :=
  if (candles.map Candle.close).length < slowPeriod + signalPeriod then none
  else if (macdLine (candles.map Candle.close) fastPeriod slowPeriod).length <
      signalPeriod then none
  else
    match (macdLine (candles.map Candle.close) fastPeriod slowPeriod).getLast?,
      (calculateEMA (macdLine (candles.map Candle.close) fastPeriod slowPeriod)
        signalPeriod).getLast? with
    | some lastMacdLine, some lastSignalLine =>
        some ⟨round2 lastMacdLine, round2 lastSignalLine,
          round2 (lastMacdLine - lastSignalLine)⟩
    | _, _ => none

/-- The last entry of the default-parameter MACD line. -/
def lastMacdDefault (candles : List Candle) : ℚ :=
  (macdLine (candles.map Candle.close) 12 26).getLastD 0

/-- The last entry of the default-parameter signal line. -/
def lastSignalDefault (candles : List Candle) : ℚ :=
  (calculateEMA (macdLine (candles.map Candle.close) 12 26) 9).getLastD 0

/-- The consecutive price changes `prices[i] - prices[i-1]` iterated by
`calculateRSI` (`services/geminiService.ts`, lines 101-102 and 114-115). -/
def priceChanges (prices : List ℚ) : List ℚ :=
  List.zipWith (fun a b => b - a) prices prices.tail

/-- `calculateRSI` from `services/geminiService.ts` (lines 91-131): absent when
the series has at most `period` samples; otherwise the initial average gain
and loss over the first `period` changes followed by Wilder smoothing over
the remaining changes, yielding `100` when the final average loss is zero and
`100 - 100/(1 + avgGain/avgLoss)` rounded to two decimals otherwise. -/
def calculateRSI (candles : List Candle) (period : ℕ) : Option ℚ :=
  if candles.length ≤ period then none
  else
    let ds := priceChanges (candles.map Candle.close)
    let init := (ds.take period).foldl
      (fun gl d => if 0 < d then (gl.1 + d, gl.2) else (gl.1, gl.2 - d)) (0, 0)
    let avg := (ds.drop period).foldl
      (fun a d =>
        ((a.1 * ((period : ℚ) - 1) + (if 0 < d then d else 0)) / (period : ℚ),
         (a.2 * ((period : ℚ) - 1) + (if d < 0 then -d else 0)) / (period : ℚ)))
      (init.1 / (period : ℚ), init.2 / (period : ℚ))
    if avg.2 = 0 then some 100
    else some (round2 (100 - 100 / (1 + avg.1 / avg.2)))

/-- The gain contributed by one price change. -/
def gainOf (d : ℚ) : ℚ := if 0 < d then d else 0

/-- The (positive-magnitude) loss contributed by one price change. -/
def lossOf (d : ℚ) : ℚ := if d < 0 then -d else 0

/-- Wilder smoothing: `avg = (avg*(period-1) + current)/period`. -/
def wilder (p avg cur : ℚ) : ℚ := (avg * (p - 1) + cur) / p

/-- Initial average gain of `calculateRSI`: positive changes among the first
`period` deltas, summed and divided by `period`. -/
def avgGain0 (candles : List Candle) (p : ℕ) : ℚ :=
  ((((priceChanges (candles.map Candle.close)).take p).map gainOf).sum) / (p : ℚ)

/-- Initial average loss of `calculateRSI`: magnitudes of non-positive changes
among the first `period` deltas, summed and divided by `period`. -/
def avgLoss0 (candles : List Candle) (p : ℕ) : ℚ :=
  ((((priceChanges (candles.map Candle.close)).take p).map lossOf).sum) / (p : ℚ)

/-- Final average gain: Wilder smoothing of the remaining deltas. -/
def avgGainFinal (candles : List Candle) (p : ℕ) : ℚ :=
  ((priceChanges (candles.map Candle.close)).drop p).foldl
    (fun g d => wilder (p : ℚ) g (gainOf d)) (avgGain0 candles p)

/-- Final average loss: Wilder smoothing of the remaining deltas. -/
def avgLossFinal (candles : List Candle) (p : ℕ) : ℚ :=
  ((priceChanges (candles.map Candle.close)).drop p).foldl
    (fun l d => wilder (p : ℚ) l (lossOf d)) (avgLoss0 candles p)

/-- A raw failure from a provider call: the message text plus whether the
thrown value was a `TypeError` or a `SyntaxError` instance. -/
structure RawError where
  message : String
  isTypeError : Bool
  isSyntaxError : Bool
deriving DecidableEq

/-- Helper for the `includes` model: does the pattern occur at the front. -/
def startsWithChars : List Char → List Char → Bool
  | [], _ => true
  | _ :: _, [] => false
  | p :: ps, c :: cs => p == c && startsWithChars ps cs

/-- Helper for the `includes` model: does the pattern occur anywhere. -/
def containsChars (pat : List Char) : List Char → Bool
  | [] => startsWithChars pat []
  | c :: cs => startsWithChars pat (c :: cs) || containsChars pat cs

/-- JS `string.includes(pattern)`. -/
def includesStr (s pat : String) : Bool := containsChars pat.data s.data

/-- JS `message.toLowerCase()` (ASCII lowering, which covers the patterns
`handleApiError` searches for). -/
def toLowerStr (s : String) : String := String.mk (s.data.map Char.toLower)

/-- `handleApiError` from `services/geminiService.ts` (lines 137-152): the
lower-cased message is matched for an invalid API key, then for rate/quota
markers, then the error is tested for being a network `TypeError`, with a
generic fallback. -/
def handleApiError (e : RawError) : String :=
  if includesStr (toLowerStr e.message) "api key not valid" then
    "Invalid API Key. Please ensure it is set correctly."
  else if includesStr (toLowerStr e.message) "429" ||
      includesStr (toLowerStr e.message) "resource_exhausted" then
    "API rate limit reached. Please wait and try again."
  else if e.isTypeError then
    "Network error. Please check your internet connection."
  else
    "An unexpected error occurred with the AI service."

/-- The catch clause of `getStockSignal` (`services/geminiService.ts`, lines
209-214): a `SyntaxError` (JSON.parse failure on a malformed, non-JSON
response) maps to the invalid-response-format message; every other failure is
classified by `handleApiError`. -/
def getStockSignalErrorMessage (e : RawError) : String :=
  if e.isSyntaxError then
    "AI returned an invalid response format. Please try refreshing."
  else handleApiError e

end GeminiService

namespace SparklineChart

/-- The tail loop of the duplicated `calculateEMA` in
`components/SparklineChart.tsx` (lines 70-74). -/
def emaTail (k : ℚ) : List ℚ → ℚ → List ℚ
  | [], _ => []
  | p :: rest, prev =>
    let e := p * k + prev * (1 - k)
    e :: emaTail k rest e

/-- `calculateEMA` from `components/SparklineChart.tsx` (lines 58-76), a
textual duplicate of the one in `services/geminiService.ts`. -/
def calculateEMA (prices : List ℚ) (period : ℕ) : List ℚ :=
  if prices.length < period then []
  else
    let k : ℚ := 2 / ((period : ℚ) + 1)
    let seed : ℚ := (prices.take period).sum / (period : ℚ)
    seed :: emaTail k (prices.drop period) seed

end SparklineChart

/-- `StockState` from `types.ts`, as initialised and mutated by the main app
component (the chat transcript field is not touched by the refresh machinery
and is omitted). -/
structure StockState where
  symbol : String
  candles : List Candle
  signal : Option Signal
  countdown : Int
  status : ConnectionStatus
  error : Option String
deriving DecidableEq

namespace App

/-- The error caught by `fetchSignal` (app component, line 59): either an
`AIError` carrying a user-friendly message, or anything else. -/
inductive CaughtError
  | aiError (userFriendlyMessage : String)
  | unknown
deriving DecidableEq

/-- The user message recorded by the `fetchSignal` catch clause (line 59). -/
def failureMessage : CaughtError → String
  | CaughtError.aiError m => m
  | CaughtError.unknown => "An unknown error occurred."

/-- The synchronous head of `fetchSignal` (app component, lines 38-41): set
the machine REFRESHING and clear the error, touching nothing else. -/
def fetchSignalStart (s : StockState) : StockState :=
  { s with status := ConnectionStatus.REFRESHING, error := none }

/-- The success update of `fetchSignal` (lines 46-56): replace candles and
signal, go ONLINE, reset the countdown to the configured interval, clear the
error. -/
def fetchSignalSuccess (interval : Int) (newCandles : List Candle)
    (sig : Signal) (s : StockState) : StockState :=
  { s with
    candles := newCandles, signal := some sig,
    status := ConnectionStatus.ONLINE, countdown := interval, error := none }

/-- The failure update of `fetchSignal` (lines 60-68): go OFFLINE, reset the
countdown to the configured interval, record the classified message; candles
and signal are spread through unchanged. -/
def fetchSignalFailure (interval : Int) (e : CaughtError)
    (s : StockState) : StockState :=
  { s with
    status := ConnectionStatus.OFFLINE, countdown := interval,
    error := some (failureMessage e) }

/-- The per-symbol update of the 1-second interval callback (lines 135-145):
ONLINE machines are decremented, reaching zero means REFRESHING with the
countdown clamped at 0; OFFLINE and REFRESHING machines are untouched. -/
def tickStock (s : StockState) : StockState :=
  if s.status = ConnectionStatus.ONLINE then
    if s.countdown - 1 ≤ 0 then
      { s with status := ConnectionStatus.REFRESHING, countdown := 0 }
    else { s with countdown := s.countdown - 1 }
  else s

/-- The `symbolsToFetch` collected during one tick (lines 131-147): the
symbols that are ONLINE with a countdown about to reach zero. -/
def tickDue (data : List StockState) : List String :=
  (data.filter
    (fun s => decide (s.status = ConnectionStatus.ONLINE ∧ s.countdown - 1 ≤ 0))).map
    (fun s => s.symbol)

/-- The refresh-scheduling state of the app component: the per-symbol store,
the not-yet-dispatched queue of the shared rate limiter (modelled from the
spec, the limiter file not being among the sources), and the multiset of
symbols with an outstanding provider call. -/
structure AppState where
  data : List StockState
  queue : List String
  inFlight : List String
deriving DecidableEq

/-- One whole tick of the interval callback (lines 129-154): all machines are
updated and the due symbols are handed to the scheduler in the same step. -/
def tickStep (a : AppState) : AppState :=
  { data := a.data.map tickStock,
    queue := a.queue ++ tickDue a.data,
    inFlight := a.inFlight }

/-- `isRefreshingAll` (line 35): some machine is REFRESHING; the Refresh All
button is disabled exactly then (line 210). -/
def isRefreshingAll (a : AppState) : Prop :=
  ∃ s ∈ a.data, s.status = ConnectionStatus.REFRESHING

/-- Keyed update of the per-symbol store (the `setStockData` spreads). -/
def updateStock (data : List StockState) (sym : String)
    (f : StockState → StockState) : List StockState :=
  data.map (fun s => if s.symbol = sym then f s else s)

/-- The scheduling configuration: `REFRESH_INTERVAL_SECONDS` from
`constants.ts` and the rate limiter concurrency bound, both configurable
values whose defining file is not among the sources. -/
structure Config where
  interval : Int
  maxConcurrent : ℕ

/-- The events of the refresh core: a heartbeat tick (lines 129-154), a
manual Refresh All (lines 72-76, only enabled while no machine is REFRESHING,
line 210), the rate limiter dispatching the queue head within its concurrency
bound (queue discipline modelled from the spec), and a provider call
finishing in success or failure (lines 43-69). -/
inductive Step (cfg : Config) : AppState → AppState → Prop
  | tick (a : AppState) : Step cfg a (tickStep a)
  | refreshAll (a : AppState) (h : ¬ isRefreshingAll a) :
      Step cfg a { a with queue := a.queue ++ a.data.map (fun s => s.symbol) }
  | dispatch (a : AppState) (sym : String) (rest : List String)
      (hq : a.queue = sym :: rest)
      (hc : a.inFlight.length < cfg.maxConcurrent) :
      Step cfg a { data := updateStock a.data sym fetchSignalStart,
                   queue := rest, inFlight := a.inFlight ++ [sym] }
  | succeed (a : AppState) (sym : String) (h : sym ∈ a.inFlight)
      (newCandles : List Candle) (sig : Signal) :
      Step cfg a { data := updateStock a.data sym
                     (fetchSignalSuccess cfg.interval newCandles sig),
                   queue := a.queue, inFlight := a.inFlight.erase sym }
  | fail (a : AppState) (sym : String) (h : sym ∈ a.inFlight)
      (e : CaughtError) :
      Step cfg a { data := updateStock a.data sym
                     (fetchSignalFailure cfg.interval e),
                   queue := a.queue, inFlight := a.inFlight.erase sym }

/-- The initial store (lines 12-26): every configured symbol OFFLINE with a
full countdown, no signal, no candles, no error. -/
def initState (syms : List String) (cfg : Config) : AppState :=
  { data := syms.map (fun sym =>
      { symbol := sym, candles := [], signal := none,
        countdown := cfg.interval, status := ConnectionStatus.OFFLINE,
        error := none }),
    queue := [],
    inFlight := [] }

/-- States reachable from the initial store by the events above. -/
inductive Reach (cfg : Config) (syms : List String) : AppState → Prop
  | init : Reach cfg syms (initState syms cfg)
  | step {a b : AppState} : Reach cfg syms a → Step cfg a b →
      Reach cfg syms b

/-- `signalsForSentiment` (lines 166-171): the symbols currently ONLINE with
a non-absent signal, each mapped to its signal type. -/
def signalsForSentiment (data : List StockState) : List (String × SignalType) :=
  data.filterMap (fun s =>
    match s.signal, s.status with
    | some sig, ConnectionStatus.ONLINE => some (s.symbol, sig.type)
    | _, _ => none)

/-- The debounce-timer body of the sentiment effect (lines 165-187): submit
one aggregation call carrying `signalsForSentiment` exactly when its size
exceeds half of the tracked-symbol count, otherwise do nothing. -/
def sentimentOnTimer (data : List StockState) :
    Option (List (String × SignalType)) :=
  if (data.length : ℚ) / 2 < ((signalsForSentiment data).length : ℚ) then
    some (signalsForSentiment data)
  else none

end App

namespace RateLimiter

/-- Modelled from the spec: the state of the shared rate limiter behind
`scheduleApiCall` (its implementation file `utils/apiRateLimiter.ts` is not
among the sources; section 4.3 of the specification describes it). Queued
submissions carry increasing ids in submission order, `dispatched` lists the
admitted ids in admission order, `inFlightCount` counts running actions. -/
structure LimState where
  queue : List ℕ
  inFlightCount : ℕ
  dispatched : List ℕ
  nextId : ℕ
deriving DecidableEq

/-- Modelled from the spec: `Schedule(action)` appends at the queue tail; the
limiter admits only the queue head and only strictly below its concurrency
bound; a completion frees a slot; cancelling a not-yet-dispatched call
removes it from the queue without side effects. -/
inductive LimStep (maxConcurrent : ℕ) : LimState → LimState → Prop
  | submit (s : LimState) :
      LimStep maxConcurrent s
        { s with queue := s.queue ++ [s.nextId], nextId := s.nextId + 1 }
  | dispatch (s : LimState) (i : ℕ) (rest : List ℕ)
      (hq : s.queue = i :: rest) (hc : s.inFlightCount < maxConcurrent) :
      LimStep maxConcurrent s
        { queue := rest, inFlightCount := s.inFlightCount + 1,
          dispatched := s.dispatched ++ [i], nextId := s.nextId }
  | complete (s : LimState) (h : 0 < s.inFlightCount) :
      LimStep maxConcurrent s { s with inFlightCount := s.inFlightCount - 1 }
  | cancel (s : LimState) (i : ℕ) :
      LimStep maxConcurrent s { s with queue := s.queue.erase i }

/-- Modelled from the spec: the limiter starts idle and empty. -/
def limInit : LimState := LimState.mk [] 0 [] 0

/-- Limiter states reachable from the idle state. -/
inductive LimReach (maxConcurrent : ℕ) : LimState → Prop
  | init : LimReach maxConcurrent limInit
  | step {a b : LimState} : LimReach maxConcurrent a →
      LimStep maxConcurrent a b → LimReach maxConcurrent b

/-- The inductive invariant: the concurrency bound holds, ids in admission
order followed by queued ids are strictly increasing, and all are below the
next fresh id. -/
def LimInv (maxConcurrent : ℕ) (s : LimState) : Prop :=
  s.inFlightCount ≤ maxConcurrent ∧
    (s.dispatched ++ s.queue).Sorted (· < ·) ∧
    ∀ i ∈ s.dispatched ++ s.queue, i < s.nextId

end RateLimiter

namespace GeminiService

lemma emaTail_length (k : ℚ) : ∀ (l : List ℚ) (prev : ℚ),
    (emaTail k l prev).length = l.length := by
  intro l
  induction l with
  | nil => intro prev; rfl
  | cons p rest ih => intro prev; simp [emaTail, ih]

lemma calculateEMA_of_lt {prices : List ℚ} {period : ℕ}
    (h : prices.length < period) : calculateEMA prices period = [] := by
  simp [calculateEMA, h]

lemma calculateEMA_of_le {prices : List ℚ} {period : ℕ}
    (h : period ≤ prices.length) :
    calculateEMA prices period =
      ((prices.take period).sum / (period : ℚ)) ::
        emaTail (2 / ((period : ℚ) + 1)) (prices.drop period)
          ((prices.take period).sum / (period : ℚ)) := by
  simp [calculateEMA, Nat.not_lt.mpr h]

lemma calculateEMA_length {prices : List ℚ} {period : ℕ}
    (h : period ≤ prices.length) :
    (calculateEMA prices period).length = prices.length - period + 1 := by
  rw [calculateEMA_of_le h]
  simp [emaTail_length]

lemma calculateEMA_ne_nil {prices : List ℚ} {period : ℕ}
    (h : period ≤ prices.length) :
    calculateEMA prices period ≠ [] := by
  rw [calculateEMA_of_le h]
  exact List.cons_ne_nil _ _

lemma emaTail_getD (k : ℚ) : ∀ (l : List ℚ) (prev : ℚ) (j : ℕ),
    j < l.length →
    (emaTail k l prev).getD j 0 =
      l.getD j 0 * k + ((prev :: emaTail k l prev).getD j 0) * (1 - k) := by
  intro l
  induction l with
  | nil => intro prev j h; simp at h
  | cons p rest ih =>
    intro prev j h
    cases j with
    | zero => simp [emaTail]
    | succ j =>
      have hj : j < rest.length := by simpa using h
      simpa [emaTail] using ih (p * k + prev * (1 - k)) j hj

lemma getLast?_eq_getLastD {l : List ℚ} (h : l ≠ []) :
    l.getLast? = some (l.getLastD 0) := by
  obtain ⟨x, hx⟩ := Option.isSome_iff_exists.mp (List.getLast?_isSome.mpr h)
  rw [List.getLastD_eq_getLast?, hx]
  rfl

lemma macdLine_default_length {prices : List ℚ} (h : 26 ≤ prices.length) :
    (macdLine prices 12 26).length = prices.length - 25 := by
  have h12 : (12 : ℕ) ≤ prices.length := by omega
  rw [macdLine, List.length_zipWith, List.length_drop,
    calculateEMA_length h12, calculateEMA_length h]
  omega

lemma rsiInit_eq : ∀ (ds : List ℚ) (g l : ℚ),
    ds.foldl
      (fun gl d => if 0 < d then (gl.1 + d, gl.2) else (gl.1, gl.2 - d)) (g, l)
      = (g + (ds.map gainOf).sum, l + (ds.map lossOf).sum) := by
  intro ds
  induction ds with
  | nil => intro g l; simp
  | cons d rest ih =>
    intro g l
    by_cases hd : 0 < d
    · have hg : gainOf d = d := by simp [gainOf, hd]
      have hl : lossOf d = 0 := by simp [lossOf, asymm hd]
      simp [hd, ih, hg, hl]
      ring
    · have hg : gainOf d = 0 := by simp [gainOf, hd]
      have hl : lossOf d = -d := by
        rcases lt_or_eq_of_le (not_lt.mp hd) with h | h
        · simp [lossOf, h]
        · rw [h]
          simp [lossOf]
      simp [hd, ih, hg, hl]
      ring

lemma rsiSmooth_eq (p : ℚ) : ∀ (ds : List ℚ) (a b : ℚ),
    ds.foldl
      (fun x d =>
        ((x.1 * (p - 1) + (if 0 < d then d else 0)) / p,
         (x.2 * (p - 1) + (if d < 0 then -d else 0)) / p)) (a, b)
      = (ds.foldl (fun g d => wilder p g (gainOf d)) a,
         ds.foldl (fun l d => wilder p l (lossOf d)) b) := by
  intro ds
  induction ds with
  | nil => intro a b; simp
  | cons d rest ih =>
    intro a b
    simp only [List.foldl_cons]
    rw [ih]
    simp [wilder, gainOf, lossOf]

lemma calculateRSI_of_gt {candles : List Candle} {p : ℕ}
    (h : p < candles.length) :
    calculateRSI candles p =
      (if avgLossFinal candles p = 0 then some 100
       else some (round2 (100 - 100 /
         (1 + avgGainFinal candles p / avgLossFinal candles p)))) := by
  have hnle : ¬ candles.length ≤ p := not_le.mpr h
  simp only [calculateRSI, if_neg hnle]
  rw [rsiInit_eq, rsiSmooth_eq]
  simp only [avgGainFinal, avgLossFinal, avgGain0, avgLoss0, zero_add]

end GeminiService

lemma getD_drop (l : List ℚ) (n m : ℕ) :
    (l.drop n).getD m 0 = l.getD (n + m) 0 := by
  simp [List.getD_eq_getElem?_getD, List.getElem?_drop]

lemma sparkline_emaTail_eq (k : ℚ) : ∀ (l : List ℚ) (prev : ℚ),
    SparklineChart.emaTail k l prev = GeminiService.emaTail k l prev := by
  intro l
  induction l with
  | nil => intro prev; rfl
  | cons p rest ih =>
    intro prev
    simp [SparklineChart.emaTail, GeminiService.emaTail, ih]

namespace App

lemma tickStock_symbol (s : StockState) : (tickStock s).symbol = s.symbol := by
  by_cases h1 : s.status = ConnectionStatus.ONLINE
  · by_cases h2 : s.countdown - 1 ≤ 0 <;> simp [tickStock, h1, h2]
  · simp [tickStock, h1]

lemma updateStock_symbols (data : List StockState) (sym : String)
    (f : StockState → StockState) (hf : ∀ t, (f t).symbol = t.symbol) :
    (updateStock data sym f).map (fun s => s.symbol) =
      data.map (fun s => s.symbol) := by
  rw [updateStock, List.map_map]
  apply List.map_congr_left
  intro t _
  by_cases h : t.symbol = sym <;> simp [h, hf]

/-- In every reachable state the per-symbol store still holds exactly the
configured symbols, in order. -/
lemma reach_symbols {cfg : Config} {syms : List String} {a : AppState}
    (h : Reach cfg syms a) : a.data.map (fun s => s.symbol) = syms := by
  induction h with
  | init =>
    show (syms.map _).map (fun s : StockState => s.symbol) = syms
    rw [List.map_map]
    exact List.map_id syms
  | step hr hstep ih =>
    cases hstep with
    | tick =>
      show ((_ : AppState).data.map tickStock).map (fun s => s.symbol) = syms
      rw [List.map_map, ← ih]
      apply List.map_congr_left
      intro t _
      exact tickStock_symbol t
    | refreshAll h1 => exact ih
    | dispatch sym rest hq hc =>
      rw [show ∀ b : AppState, b.data.map (fun s => s.symbol) =
        b.data.map (fun s => s.symbol) from fun _ => rfl]
      exact (updateStock_symbols _ sym fetchSignalStart
        (fun t => rfl)).trans ih
    | succeed sym hmem newC sig =>
      exact (updateStock_symbols _ sym
        (fetchSignalSuccess cfg.interval newC sig) (fun t => rfl)).trans ih
    | fail sym hmem e =>
      exact (updateStock_symbols _ sym
        (fetchSignalFailure cfg.interval e) (fun t => rfl)).trans ih

/-- In every reachable state, an ONLINE machine has a countdown of at least 1
(provided the configured interval is), which justifies reasoning about ticks
only at positive countdowns. -/
lemma reach_online_countdown {cfg : Config} {syms : List String}
    {a : AppState} (hint : 1 ≤ cfg.interval) (h : Reach cfg syms a) :
    ∀ s ∈ a.data, s.status = ConnectionStatus.ONLINE → 1 ≤ s.countdown := by
  induction h with
  | init =>
    intro s hs hst
    obtain ⟨sym, _, rfl⟩ := List.mem_map.mp hs
    simp at hst
  | step hr hstep ih =>
    cases hstep with
    | tick =>
      intro s hs hst
      obtain ⟨t, ht, rfl⟩ := List.mem_map.mp hs
      by_cases h1 : t.status = ConnectionStatus.ONLINE
      · by_cases h2 : t.countdown - 1 ≤ 0
        · rw [tickStock, if_pos h1, if_pos h2] at hst
          simp at hst
        · rw [tickStock, if_pos h1, if_neg h2]
          show 1 ≤ t.countdown - 1
          omega
      · rw [tickStock, if_neg h1] at hst
        exact absurd hst h1
    | refreshAll h1 => exact ih
    | dispatch sym rest hq hc =>
      intro s hs hst
      obtain ⟨t, ht, rfl⟩ := List.mem_map.mp hs
      by_cases h1 : t.symbol = sym
      · simp [h1, fetchSignalStart] at hst
      · simp only [h1, if_false] at hst ⊢
        exact ih t ht hst
    | succeed sym hmem newC sig =>
      intro s hs hst
      obtain ⟨t, ht, rfl⟩ := List.mem_map.mp hs
      by_cases h1 : t.symbol = sym
      · simp [h1, fetchSignalSuccess]
        omega
      · simp only [h1, if_false] at hst ⊢
        exact ih t ht hst
    | fail sym hmem e =>
      intro s hs hst
      obtain ⟨t, ht, rfl⟩ := List.mem_map.mp hs
      by_cases h1 : t.symbol = sym
      · simp [h1, fetchSignalFailure] at hst
      · simp only [h1, if_false] at hst ⊢
        exact ih t ht hst

end App

namespace RateLimiter

lemma limInv_init (m : ℕ) : LimInv m limInit := by
  refine ⟨Nat.zero_le m, ?_, ?_⟩
  · simp [limInit]
  · intro i hi
    simp [limInit] at hi

lemma limInv_step {m : ℕ} {a b : LimState} (ha : LimInv m a)
    (h : LimStep m a b) : LimInv m b := by
  obtain ⟨hcap, hsort, hbound⟩ := ha
  cases h with
  | submit =>
    refine ⟨hcap, ?_, ?_⟩
    · show (a.dispatched ++ (a.queue ++ [a.nextId])).Sorted (· < ·)
      have h1 : ((a.dispatched ++ a.queue) ++ [a.nextId]).Sorted (· < ·) := by
        refine List.pairwise_append.mpr ⟨hsort, List.sorted_singleton _, ?_⟩
        intro x hx y hy
        rw [List.mem_singleton] at hy
        rw [hy]
        exact hbound x hx
      rw [List.append_assoc] at h1
      exact h1
    · intro i hi
      show i < a.nextId + 1
      have hi2 : i ∈ (a.dispatched ++ a.queue) ++ [a.nextId] := by
        rw [List.append_assoc]
        exact hi
      rw [List.mem_append] at hi2
      rcases hi2 with hi2 | hi2
      · exact Nat.lt_succ_of_lt (hbound i hi2)
      · rw [List.mem_singleton] at hi2
        rw [hi2]
        exact Nat.lt_succ_self _
  | dispatch i rest hq hc =>
    have heq : (a.dispatched ++ [i]) ++ rest = a.dispatched ++ a.queue := by
      rw [hq, List.append_assoc]
      rfl
    refine ⟨hc, ?_, ?_⟩
    · show ((a.dispatched ++ [i]) ++ rest).Sorted (· < ·)
      rw [heq]
      exact hsort
    · intro j hj
      show j < a.nextId
      apply hbound
      rw [← heq]
      exact hj
  | complete h1 =>
    exact ⟨le_trans (Nat.sub_le _ _) hcap, hsort, hbound⟩
  | cancel i =>
    have hsub : (a.dispatched ++ a.queue.erase i).Sublist
        (a.dispatched ++ a.queue) :=
      List.Sublist.append_left (List.erase_sublist i a.queue) _
    exact ⟨hcap, hsort.sublist hsub, fun j hj => hbound j (hsub.mem hj)⟩

lemma limInv_of_reach {m : ℕ} {s : LimState} (h : LimReach m s) :
    LimInv m s := by
  induction h with
  | init => exact limInv_init m
  | step _ hstep ih => exact limInv_step ih hstep

end RateLimiter

/-- C1 is false as stated: with one tracked symbol, refresh interval 1 and a
limiter concurrency of 2, a manual Refresh All queued while the machine is
ONLINE, followed by a heartbeat that makes the same symbol due before the
queued refresh is dispatched, ends with two simultaneous in-flight provider
calls for that symbol - `fetchSignal` has no REFRESHING guard. -/
theorem duplicate_inflight_reachable :
    App.Reach (App.Config.mk 1 2) ["X"]
        (App.AppState.mk
          [StockState.mk "X" [] (some (Signal.mk SignalType.HOLD "" [])) 0
            ConnectionStatus.REFRESHING none]
          [] ["X", "X"]) ∧
      ¬ List.count "X" ["X", "X"] ≤ 1 := by
  constructor
  · have h0 : App.Reach (App.Config.mk 1 2) ["X"]
        (App.initState ["X"] (App.Config.mk 1 2)) := App.Reach.init
    have h1 : App.Reach (App.Config.mk 1 2) ["X"]
        (App.AppState.mk
          [StockState.mk "X" [] none 1 ConnectionStatus.OFFLINE none]
          ["X"] []) :=
      App.Reach.step h0 (App.Step.refreshAll _
        (by unfold App.isRefreshingAll; decide))
    have h2 : App.Reach (App.Config.mk 1 2) ["X"]
        (App.AppState.mk
          [StockState.mk "X" [] none 1 ConnectionStatus.REFRESHING none]
          [] ["X"]) :=
      App.Reach.step h1 (App.Step.dispatch _ "X" [] rfl (by decide))
    have h3 : App.Reach (App.Config.mk 1 2) ["X"]
        (App.AppState.mk
          [StockState.mk "X" [] (some (Signal.mk SignalType.HOLD "" [])) 1
            ConnectionStatus.ONLINE none]
          [] []) :=
      App.Reach.step h2 (App.Step.succeed _ "X" (by decide) []
        (Signal.mk SignalType.HOLD "" []))
    have h4 : App.Reach (App.Config.mk 1 2) ["X"]
        (App.AppState.mk
          [StockState.mk "X" [] (some (Signal.mk SignalType.HOLD "" [])) 1
            ConnectionStatus.ONLINE none]
          ["X"] []) :=
      App.Reach.step h3 (App.Step.refreshAll _
        (by unfold App.isRefreshingAll; decide))
    have h5 : App.Reach (App.Config.mk 1 2) ["X"]
        (App.AppState.mk
          [StockState.mk "X" [] (some (Signal.mk SignalType.HOLD "" [])) 0
            ConnectionStatus.REFRESHING none]
          ["X", "X"] []) :=
      App.Reach.step h4 (App.Step.tick _)
    have h6 : App.Reach (App.Config.mk 1 2) ["X"]
        (App.AppState.mk
          [StockState.mk "X" [] (some (Signal.mk SignalType.HOLD "" [])) 0
            ConnectionStatus.REFRESHING none]
          ["X"] ["X"]) :=
      App.Reach.step h5 (App.Step.dispatch _ "X" ["X"] rfl (by decide))
    exact App.Reach.step h6 (App.Step.dispatch _ "X" [] rfl (by decide))
  · decide

/-- C1 (amended): a heartbeat due-event is never emitted for a machine that
is already REFRESHING - only ONLINE machines are collected - and a manual
Refresh All is unavailable whenever any machine is REFRESHING (its guard,
the disabled button, fails); a refresh already sitting in the limiter queue
when its machine enters REFRESHING is however not ignored when dispatched. -/
theorem refresh_request_guards (a : App.AppState) (s : StockState)
    (hnd : (a.data.map (fun x => x.symbol)).Nodup)
    (hs : s ∈ a.data) (hR : s.status = ConnectionStatus.REFRESHING) :
    s.symbol ∉ App.tickDue a.data ∧ App.isRefreshingAll a := by
  constructor
  · intro hmem
    rcases List.mem_map.mp hmem with ⟨t, htf, hsym⟩
    rcases List.mem_filter.mp htf with ⟨htd, hpred⟩
    have hpred2 : t.status = ConnectionStatus.ONLINE ∧ t.countdown - 1 ≤ 0 :=
      of_decide_eq_true hpred
    have hts : t = s := List.inj_on_of_nodup_map hnd htd hs hsym
    rw [hts] at hpred2
    exact absurd (hpred2.1.symm.trans hR) (by decide)
  · exact ⟨s, hs, hR⟩

/-- Witness for the amended C1 at a single REFRESHING machine. -/
theorem refresh_request_guards_witness :
    ((App.AppState.mk
        [StockState.mk "X" [] none 0 ConnectionStatus.REFRESHING none]
        [] ["X"]).data.map (fun x => x.symbol)).Nodup ∧
      StockState.mk "X" [] none 0 ConnectionStatus.REFRESHING none ∈
        (App.AppState.mk
          [StockState.mk "X" [] none 0 ConnectionStatus.REFRESHING none]
          [] ["X"]).data ∧
      (StockState.mk "X" [] none 0 ConnectionStatus.REFRESHING none).symbol ∉
        App.tickDue (App.AppState.mk
          [StockState.mk "X" [] none 0 ConnectionStatus.REFRESHING none]
          [] ["X"]).data ∧
      App.isRefreshingAll (App.AppState.mk
        [StockState.mk "X" [] none 0 ConnectionStatus.REFRESHING none]
        [] ["X"]) :=
  ⟨by decide, by decide,
    refresh_request_guards
      (App.AppState.mk
        [StockState.mk "X" [] none 0 ConnectionStatus.REFRESHING none]
        [] ["X"])
      (StockState.mk "X" [] none 0 ConnectionStatus.REFRESHING none)
      (by decide) (by decide) rfl⟩

/-- C2: a provider failure during a refresh leaves the symbol's candles and
signal exactly as they were before the attempt (the attempt's synchronous
head only sets REFRESHING and clears the error), sets status OFFLINE, resets
the countdown to the configured interval, and records the classified
user-facing message. -/
theorem fetchSignal_failure_spec (interval : Int) (e : App.CaughtError)
    (s : StockState) :
    (App.fetchSignalFailure interval e (App.fetchSignalStart s)).candles =
        s.candles ∧
      (App.fetchSignalFailure interval e (App.fetchSignalStart s)).signal =
        s.signal ∧
      (App.fetchSignalFailure interval e (App.fetchSignalStart s)).status =
        ConnectionStatus.OFFLINE ∧
      (App.fetchSignalFailure interval e (App.fetchSignalStart s)).countdown =
        interval ∧
      (App.fetchSignalFailure interval e (App.fetchSignalStart s)).error =
        some (App.failureMessage e) :=
  ⟨rfl, rfl, rfl, rfl, rfl⟩

/-- C3: with the default parameters 12/26/9, `calculateMACD` is absent exactly
when the series has fewer than 35 samples; for 35 or more samples it returns
the last MACD-line value, the last signal-line value (the 9-EMA of the MACD
line, the fast EMA having been truncated from the front by `26 - 12` samples
before subtraction), and their difference as histogram, each rounded to two
decimals. -/
theorem calculateMACD_default_spec (candles : List Candle) :
    (GeminiService.calculateMACD candles 12 26 9 = none ↔
      candles.length < 35) ∧
    (35 ≤ candles.length →
      GeminiService.calculateMACD candles 12 26 9 =
        some ⟨round2 (GeminiService.lastMacdDefault candles),
          round2 (GeminiService.lastSignalDefault candles),
          round2 (GeminiService.lastMacdDefault candles -
            GeminiService.lastSignalDefault candles)⟩) := by
  have hp : (candles.map Candle.close).length = candles.length :=
    List.length_map _ _
  have hval : 35 ≤ candles.length →
      GeminiService.calculateMACD candles 12 26 9 =
        some ⟨round2 (GeminiService.lastMacdDefault candles),
          round2 (GeminiService.lastSignalDefault candles),
          round2 (GeminiService.lastMacdDefault candles -
            GeminiService.lastSignalDefault candles)⟩ := by
    intro h35
    have h26 : 26 ≤ (candles.map Candle.close).length := by omega
    have hml : (GeminiService.macdLine (candles.map Candle.close) 12 26).length
        = candles.length - 25 := by
      rw [GeminiService.macdLine_default_length h26, hp]
    have h1 : ¬ (candles.map Candle.close).length < 26 + 9 := by omega
    have h2 : ¬ (GeminiService.macdLine (candles.map Candle.close) 12 26).length
        < 9 := by omega
    have hmne : GeminiService.macdLine (candles.map Candle.close) 12 26 ≠ [] := by
      intro hnil
      rw [hnil] at hml
      simp at hml
      omega
    have hsne : GeminiService.calculateEMA
        (GeminiService.macdLine (candles.map Candle.close) 12 26) 9 ≠ [] := by
      apply GeminiService.calculateEMA_ne_nil
      omega
    unfold GeminiService.calculateMACD
    rw [if_neg h1, if_neg h2, GeminiService.getLast?_eq_getLastD hmne,
      GeminiService.getLast?_eq_getLastD hsne]
    rfl
  refine ⟨⟨?_, ?_⟩, hval⟩
  · intro hnone
    by_contra hc
    rw [hval (by omega)] at hnone
    exact Option.some_ne_none _ hnone
  · intro h
    have hc : (candles.map Candle.close).length < 26 + 9 := by omega
    unfold GeminiService.calculateMACD
    rw [if_pos hc]

/-- Witness for C3 at a constant series of 35 candles. -/
theorem calculateMACD_default_spec_witness :
    35 ≤ (List.replicate 35 (Candle.mk 0 1 0)).length ∧
      GeminiService.calculateMACD (List.replicate 35 (Candle.mk 0 1 0)) 12 26 9 =
        some ⟨round2 (GeminiService.lastMacdDefault
            (List.replicate 35 (Candle.mk 0 1 0))),
          round2 (GeminiService.lastSignalDefault
            (List.replicate 35 (Candle.mk 0 1 0))),
          round2 (GeminiService.lastMacdDefault
              (List.replicate 35 (Candle.mk 0 1 0)) -
            GeminiService.lastSignalDefault
              (List.replicate 35 (Candle.mk 0 1 0)))⟩ :=
  ⟨by decide,
    (calculateMACD_default_spec (List.replicate 35 (Candle.mk 0 1 0))).2
      (by decide)⟩

/-- C4: `calculateRSI` is absent exactly when the series length is at most
`period`; otherwise, from the initial average gain/loss over the first
`period` changes and Wilder smoothing `avg = (avg*(period-1)+current)/period`
over the rest, it returns exactly 100 when the final average loss is zero and
`100 - 100/(1 + avgGain/avgLoss)` rounded to two decimals otherwise. -/
theorem calculateRSI_spec (candles : List Candle) (p : ℕ) :
    (GeminiService.calculateRSI candles p = none ↔ candles.length ≤ p) ∧
    (1 ≤ p → p < candles.length →
      (GeminiService.avgLossFinal candles p = 0 →
        GeminiService.calculateRSI candles p = some 100) ∧
      (GeminiService.avgLossFinal candles p ≠ 0 →
        GeminiService.calculateRSI candles p =
          some (round2 (100 - 100 /
            (1 + GeminiService.avgGainFinal candles p /
              GeminiService.avgLossFinal candles p))))) := by
  constructor
  · constructor
    · intro hnone
      by_contra hc
      rw [GeminiService.calculateRSI_of_gt (not_le.mp hc)] at hnone
      revert hnone
      split <;> simp
    · intro h
      simp [GeminiService.calculateRSI, h]
  · intro _ h2
    constructor
    · intro h0
      rw [GeminiService.calculateRSI_of_gt h2, if_pos h0]
    · intro h0
      rw [GeminiService.calculateRSI_of_gt h2, if_neg h0]

/-- Witness for C4 at two rising candles and `period = 1`. -/
theorem calculateRSI_spec_witness :
    1 ≤ 1 ∧ 1 < [Candle.mk 0 1 0, Candle.mk 0 2 0].length ∧
      GeminiService.avgLossFinal [Candle.mk 0 1 0, Candle.mk 0 2 0] 1 = 0 ∧
      GeminiService.calculateRSI [Candle.mk 0 1 0, Candle.mk 0 2 0] 1 =
        some 100 := by
  have h0 : GeminiService.avgLossFinal [Candle.mk 0 1 0, Candle.mk 0 2 0] 1
      = 0 := by
    norm_num [GeminiService.avgLossFinal, GeminiService.avgLoss0,
      GeminiService.priceChanges, GeminiService.lossOf, GeminiService.wilder]
  exact ⟨by decide, by decide, h0,
    ((calculateRSI_spec [Candle.mk 0 1 0, Candle.mk 0 2 0] 1).2
      (by decide) (by decide)).1 h0⟩

/-- C5: `calculateEMA` returns the empty sequence when the series is shorter
than the period; otherwise its first element is the arithmetic mean of the
first `period` samples, each later element satisfies
`ema[i] = price[i]*k + ema[i-1]*(1-k)` with `k = 2/(period+1)` computed left
to right, and the output length is `len(series) - period + 1`. -/
theorem calculateEMA_spec (prices : List ℚ) (p : ℕ) :
    (prices.length < p → GeminiService.calculateEMA prices p = []) ∧
    (1 ≤ p → p ≤ prices.length →
      (GeminiService.calculateEMA prices p).length = prices.length - p + 1 ∧
      (GeminiService.calculateEMA prices p).getD 0 0 =
        (prices.take p).sum / (p : ℚ) ∧
      ∀ j : ℕ, p + j < prices.length →
        (GeminiService.calculateEMA prices p).getD (j + 1) 0 =
          prices.getD (p + j) 0 * (2 / ((p : ℚ) + 1)) +
            (GeminiService.calculateEMA prices p).getD j 0 *
              (1 - 2 / ((p : ℚ) + 1))) := by
  constructor
  · intro h
    exact GeminiService.calculateEMA_of_lt h
  · intro _ h2
    refine ⟨GeminiService.calculateEMA_length h2, ?_, ?_⟩
    · rw [GeminiService.calculateEMA_of_le h2]
      rfl
    · intro j hj
      rw [GeminiService.calculateEMA_of_le h2]
      have hlen : j < (prices.drop p).length := by
        rw [List.length_drop]
        omega
      have h := GeminiService.emaTail_getD (2 / ((p : ℚ) + 1))
        (prices.drop p) ((prices.take p).sum / (p : ℚ)) j hlen
      simpa [getD_drop] using h

/-- Witness for C5 at `prices = [1, 2, 3]`, `p = 2`. -/
theorem calculateEMA_spec_witness :
    1 ≤ 2 ∧ 2 ≤ [(1 : ℚ), 2, 3].length ∧
      (GeminiService.calculateEMA [(1 : ℚ), 2, 3] 2).length =
        [(1 : ℚ), 2, 3].length - 2 + 1 :=
  ⟨by decide, by decide,
    ((calculateEMA_spec [(1 : ℚ), 2, 3] 2).2 (by decide) (by decide)).1⟩

/-- C6: when the sentiment debounce timer elapses, exactly one aggregation
call is submitted if and only if the number of tracked symbols that are
simultaneously ONLINE with a non-absent signal strictly exceeds half the
tracked-symbol count, nothing is submitted otherwise, and the submitted
input maps exactly the qualifying symbols to their signal types. -/
theorem sentiment_quorum_spec (data : List StockState) :
    ((App.sentimentOnTimer data).isSome ↔
      data.length < 2 * (App.signalsForSentiment data).length) ∧
    App.sentimentOnTimer data =
      (if data.length < 2 * (App.signalsForSentiment data).length then
        some (App.signalsForSentiment data)
      else none) ∧
    ∀ sym t, (sym, t) ∈ App.signalsForSentiment data ↔
      ∃ s ∈ data, s.symbol = sym ∧ s.status = ConnectionStatus.ONLINE ∧
        ∃ sig, s.signal = some sig ∧ sig.type = t := by
  have key : ((data.length : ℚ) / 2 <
      ((App.signalsForSentiment data).length : ℚ)) ↔
      data.length < 2 * (App.signalsForSentiment data).length := by
    rw [div_lt_iff₀ (by norm_num : (0 : ℚ) < 2)]
    norm_cast
    omega
  refine ⟨?_, ?_, ?_⟩
  · by_cases h : data.length < 2 * (App.signalsForSentiment data).length
    · simp [App.sentimentOnTimer, key.mpr h, h]
    · have hq : ¬ ((data.length : ℚ) / 2 <
          ((App.signalsForSentiment data).length : ℚ)) :=
        fun hq => h (key.mp hq)
      rw [App.sentimentOnTimer, if_neg hq]
      simp [h]
  · by_cases h : data.length < 2 * (App.signalsForSentiment data).length
    · rw [App.sentimentOnTimer, if_pos (key.mpr h), if_pos h]
    · rw [App.sentimentOnTimer, if_neg (fun hq => h (key.mp hq)), if_neg h]
  · intro sym t
    rw [App.signalsForSentiment, List.mem_filterMap]
    constructor
    · rintro ⟨s, hs, hf⟩
      rcases hsig : s.signal with _ | sig <;>
        rcases hst : s.status <;>
          rw [hsig, hst] at hf <;> simp at hf
      exact ⟨s, hs, hf.1, hst, sig, hsig, hf.2⟩
    · rintro ⟨s, hs, hsym, hst, sig, hsig, htyp⟩
      refine ⟨s, hs, ?_⟩
      rw [hsig, hst]
      simp [hsym, htyp]

/-- C7: every provider-call failure is classified into exactly one user-facing
message: malformed/non-JSON responses (SyntaxError) give the
invalid-response-format message, invalid credentials the invalid-API-key
message, 429/resource-exhausted the rate-limit message, network TypeErrors
the network-error message, and anything else - including the parseable JSON
response with missing type/reason/news fields, whose thrown message is
`Invalid JSON structure received from AI.` - the generic message. -/
theorem getStockSignalErrorMessage_spec (e : GeminiService.RawError) :
    (e.isSyntaxError = true →
      GeminiService.getStockSignalErrorMessage e =
        "AI returned an invalid response format. Please try refreshing.") ∧
    (e.isSyntaxError = false →
      GeminiService.includesStr (GeminiService.toLowerStr e.message)
        "api key not valid" = true →
      GeminiService.getStockSignalErrorMessage e =
        "Invalid API Key. Please ensure it is set correctly.") ∧
    (e.isSyntaxError = false →
      GeminiService.includesStr (GeminiService.toLowerStr e.message)
        "api key not valid" = false →
      (GeminiService.includesStr (GeminiService.toLowerStr e.message)
          "429" = true ∨
        GeminiService.includesStr (GeminiService.toLowerStr e.message)
          "resource_exhausted" = true) →
      GeminiService.getStockSignalErrorMessage e =
        "API rate limit reached. Please wait and try again.") ∧
    (e.isSyntaxError = false →
      GeminiService.includesStr (GeminiService.toLowerStr e.message)
        "api key not valid" = false →
      GeminiService.includesStr (GeminiService.toLowerStr e.message)
        "429" = false →
      GeminiService.includesStr (GeminiService.toLowerStr e.message)
        "resource_exhausted" = false →
      e.isTypeError = true →
      GeminiService.getStockSignalErrorMessage e =
        "Network error. Please check your internet connection.") ∧
    (e.isSyntaxError = false →
      GeminiService.includesStr (GeminiService.toLowerStr e.message)
        "api key not valid" = false →
      GeminiService.includesStr (GeminiService.toLowerStr e.message)
        "429" = false →
      GeminiService.includesStr (GeminiService.toLowerStr e.message)
        "resource_exhausted" = false →
      e.isTypeError = false →
      GeminiService.getStockSignalErrorMessage e =
        "An unexpected error occurred with the AI service.") ∧
    GeminiService.getStockSignalErrorMessage
        ⟨"Invalid JSON structure received from AI.", false, false⟩ =
      "An unexpected error occurred with the AI service." := by
  refine ⟨?_, ?_, ?_, ?_, ?_, ?_⟩
  · intro h1
    simp [GeminiService.getStockSignalErrorMessage, h1]
  · intro h1 h2
    simp [GeminiService.getStockSignalErrorMessage, GeminiService.handleApiError,
      h1, h2]
  · intro h1 h2 h3
    rcases h3 with h3 | h3 <;>
      simp [GeminiService.getStockSignalErrorMessage,
        GeminiService.handleApiError, h1, h2, h3]
  · intro h1 h2 h3 h4 h5
    simp [GeminiService.getStockSignalErrorMessage, GeminiService.handleApiError,
      h1, h2, h3, h4, h5]
  · intro h1 h2 h3 h4 h5
    simp [GeminiService.getStockSignalErrorMessage, GeminiService.handleApiError,
      h1, h2, h3, h4, h5]
  · decide

/-- Witness for C7 at a rate-limit failure. -/
theorem getStockSignalErrorMessage_spec_witness :
    GeminiService.RawError.isSyntaxError ⟨"Error: 429 quota", false, false⟩
        = false ∧
      GeminiService.includesStr (GeminiService.toLowerStr "Error: 429 quota")
        "429" = true ∧
      GeminiService.getStockSignalErrorMessage
        ⟨"Error: 429 quota", false, false⟩ =
        "API rate limit reached. Please wait and try again." :=
  ⟨by decide, by decide,
    ((getStockSignalErrorMessage_spec
        ⟨"Error: 429 quota", false, false⟩).2.2.1 (by decide) (by decide)
      (Or.inl (by decide)))⟩

/-- C8: on a tick, every ONLINE machine's countdown drops by exactly one (its
countdown being at least 1), an ONLINE machine at countdown 1 turns
REFRESHING and its symbol is collected for the scheduler in the same step, an
ONLINE machine with countdown at least 2 changes nothing but its countdown,
and OFFLINE or REFRESHING machines are left untouched. -/
theorem tick_spec (a : App.AppState) (s : StockState) :
    (s.status = ConnectionStatus.ONLINE → 1 ≤ s.countdown →
      (App.tickStock s).countdown = s.countdown - 1) ∧
    (s.status = ConnectionStatus.ONLINE → s.countdown = 1 →
      (App.tickStock s).status = ConnectionStatus.REFRESHING ∧
      (s ∈ a.data → s.symbol ∈ App.tickDue a.data)) ∧
    (s.status = ConnectionStatus.ONLINE → 2 ≤ s.countdown →
      App.tickStock s = { s with countdown := s.countdown - 1 }) ∧
    (s.status ≠ ConnectionStatus.ONLINE → App.tickStock s = s) ∧
    App.tickStep a =
      { data := a.data.map App.tickStock,
        queue := a.queue ++ App.tickDue a.data,
        inFlight := a.inFlight } := by
  refine ⟨?_, ?_, ?_, ?_, rfl⟩
  · intro h hc
    by_cases h2 : s.countdown - 1 ≤ 0
    · simp [App.tickStock, h, h2]
      omega
    · simp [App.tickStock, h, h2]
  · intro h hc
    constructor
    · simp [App.tickStock, h, hc]
    · intro hmem
      refine List.mem_map.mpr ⟨s, List.mem_filter.mpr ⟨hmem, ?_⟩, rfl⟩
      simp [h, hc]
  · intro h hc
    have h2 : ¬ s.countdown - 1 ≤ 0 := by omega
    simp [App.tickStock, h, h2]
  · intro h
    simp [App.tickStock, h]

/-- Witness for C8: a single ONLINE machine at countdown 1. -/
theorem tick_spec_witness :
    (StockState.mk "X" [] none 1 ConnectionStatus.ONLINE none).status =
        ConnectionStatus.ONLINE ∧
      (StockState.mk "X" [] none 1 ConnectionStatus.ONLINE none).countdown =
        1 ∧
      ((App.tickStock
          (StockState.mk "X" [] none 1 ConnectionStatus.ONLINE none)).status =
        ConnectionStatus.REFRESHING ∧
      (StockState.mk "X" [] none 1 ConnectionStatus.ONLINE none ∈
          (App.AppState.mk
            [StockState.mk "X" [] none 1 ConnectionStatus.ONLINE none]
            [] []).data →
        (StockState.mk "X" [] none 1 ConnectionStatus.ONLINE none).symbol ∈
          App.tickDue (App.AppState.mk
            [StockState.mk "X" [] none 1 ConnectionStatus.ONLINE none]
            [] []).data)) :=
  ⟨rfl, rfl,
    (tick_spec
      (App.AppState.mk
        [StockState.mk "X" [] none 1 ConnectionStatus.ONLINE none] [] [])
      (StockState.mk "X" [] none 1 ConnectionStatus.ONLINE none)).2.1
      rfl rfl⟩

/-- C9: in every reachable limiter state, the number of in-flight actions
never exceeds the configured concurrency bound, and the sequence of admitted
submissions is strictly increasing in submission order - queued actions are
dispatched first-submitted, first-admitted, so no submission is overtaken by
a later one. -/
theorem rateLimiter_capacity_fifo (m : ℕ) (s : RateLimiter.LimState)
    (h : RateLimiter.LimReach m s) :
    s.inFlightCount ≤ m ∧ s.dispatched.Sorted (· < ·) := by
  obtain ⟨hcap, hsort, _⟩ := RateLimiter.limInv_of_reach h
  exact ⟨hcap, hsort.sublist (List.sublist_append_left _ _)⟩

/-- Witness for C9: submit one action, then dispatch it, under bound 2. -/
theorem rateLimiter_capacity_fifo_witness :
    RateLimiter.LimReach 2 (RateLimiter.LimState.mk [] 1 [0] 1) ∧
      1 ≤ 2 ∧ List.Sorted (· < ·) [0] := by
  have hr : RateLimiter.LimReach 2 (RateLimiter.LimState.mk [] 1 [0] 1) :=
    RateLimiter.LimReach.step
      (RateLimiter.LimReach.step RateLimiter.LimReach.init
        (RateLimiter.LimStep.submit _))
      (RateLimiter.LimStep.dispatch _ 0 [] rfl (by decide))
  exact ⟨hr, (rateLimiter_capacity_fifo 2 _ hr).1,
    (rateLimiter_capacity_fifo 2 _ hr).2⟩

/-- C10: the `calculateEMA` in `components/SparklineChart.tsx` and the one in
`services/geminiService.ts` are extensionally equal: identical outputs on
every price series and period. -/
theorem sparkline_gemini_ema_eq (prices : List ℚ) (period : ℕ) :
    SparklineChart.calculateEMA prices period =
      GeminiService.calculateEMA prices period := by
  by_cases h : prices.length < period
  · simp [SparklineChart.calculateEMA, GeminiService.calculateEMA, h]
  · simp [SparklineChart.calculateEMA, GeminiService.calculateEMA, h,
      sparkline_emaTail_eq]
